import Mathlib

/-!
Verification of the UpstreamGate CONNECT-tunnel gateway (`main.go`).

The development shallowly embeds the program: pure helpers become Lean
functions on `String`/`List Char`; the two global registries become an
explicit `ServerState`; each HTTP handler becomes a function from its
request data and external outcomes (hijack result, dial result, upstream
response) to the new state, a list of observable events, and a response.
Machine-level byte strings are modelled as Lean strings of the
corresponding characters.

External library behaviour that the program relies on is modelled from
that library's documented semantics and marked as such in doc comments
(`encoding/base64` std decoding, `strings.SplitN`/`ToLower` on the ASCII
inputs in play, and `net/url.Parse` for the URL shapes the gateway
handles).
-/

namespace UpstreamGate

/-- Split a character list at the first occurrence of `sep`: returns the
part strictly before and the part strictly after, or `none` when `sep`
does not occur.  Models the two relevant `strings.SplitN(s, sep, 2)`
calls in `main.go` (separators are the single characters `" "` and
`":"`): `none` corresponds to `SplitN` returning one part. -/
def splitFirst (sep : Char) : List Char → Option (List Char × List Char)
  | [] => none
  | c :: rest =>
    if c = sep then some ([], rest)
    else
      match splitFirst sep rest with
      | none => none
      | some (l, r) => some (c :: l, r)

/-- Split at the last occurrence of `sep` (models `strings.LastIndex`). -/
def splitLast (sep : Char) (cs : List Char) : Option (List Char × List Char) :=
  match splitFirst sep cs.reverse with
  | none => none
  | some (r1, r2) => some (r2.reverse, r1.reverse)

/-- The characters strictly before the first occurrence of `sep` (the
whole list when `sep` is absent) — `strings.SplitN(s, sep, 2)[0]`. -/
def takeBeforeChar (sep : Char) : List Char → List Char
  | [] => []
  | c :: rest => if c = sep then [] else c :: takeBeforeChar sep rest

/-- ASCII lower-casing; models `strings.ToLower` on the ASCII inputs the
program compares (`"basic"`, URL schemes). -/
def goToLower (s : String) : String :=
  String.mk (s.data.map fun c =>
    if 'A' ≤ c ∧ c ≤ 'Z' then Char.ofNat (c.toNat + 32) else c)

/- ## Base64 (Go `encoding/base64` StdEncoding) -/

/-- Value of one character of the standard base64 alphabet. -/
def b64Val (c : Char) : Option Nat :=
  if 'A' ≤ c ∧ c ≤ 'Z' then some (c.toNat - 65)
  else if 'a' ≤ c ∧ c ≤ 'z' then some (c.toNat - 97 + 26)
  else if '0' ≤ c ∧ c ≤ '9' then some (c.toNat - 48 + 52)
  else if c = '+' then some 62
  else if c = '/' then some 63
  else none

/-- Character of the standard base64 alphabet for a 6-bit value. -/
def b64Chr (n : Nat) : Char :=
  if n < 26 then Char.ofNat (65 + n)
  else if n < 52 then Char.ofNat (97 + (n - 26))
  else if n < 62 then Char.ofNat (48 + (n - 52))
  else if n = 62 then '+'
  else '/'

/-- Decode a base64 character sequence into bytes.  Modelled from Go
`base64.StdEncoding.DecodeString` (after its newline filtering): input
length must be a multiple of four; `=` padding is allowed only at the
very end, as `xx==` (one byte) or `xxx=` (two bytes); any non-alphabet
character fails; non-zero trailing bits are dropped (Go's non-Strict
behaviour). -/
def base64DecodeBytes : List Char → Option (List Nat)
  | [] => some []
  | c1 :: c2 :: c3 :: c4 :: rest =>
    match b64Val c1, b64Val c2 with
    | some v1, some v2 =>
      if c3 = '=' then
        if c4 = '=' ∧ rest = [] then some [v1 * 4 + v2 / 16]
        else none
      else
        match b64Val c3 with
        | some v3 =>
          if c4 = '=' then
            if rest = [] then some [v1 * 4 + v2 / 16, (v2 % 16) * 16 + v3 / 4]
            else none
          else
            match b64Val c4 with
            | some v4 =>
              (base64DecodeBytes rest).map fun bs =>
                (v1 * 4 + v2 / 16) :: ((v2 % 16) * 16 + v3 / 4) ::
                  ((v3 % 4) * 64 + v4) :: bs
            | none => none
        | none => none
    | _, _ => none
  | _ => none

/-- Go's std decoder ignores `\r` and `\n` in its input. -/
def stripNewlines (cs : List Char) : List Char :=
  cs.filter fun c => ¬ (c = '\r' ∨ c = '\n')

/-- `base64.StdEncoding.DecodeString` followed by Go's `string(b)` byte
view.  Bytes are mapped to the characters of the same code point (exact
for the ASCII payloads in play). -/
def base64DecodeStr (s : String) : Option String :=
  (base64DecodeBytes (stripNewlines s.data)).map fun bs =>
    String.mk (bs.map fun b => Char.ofNat (b % 256))

/-- Encode bytes in standard base64 with padding
(`base64.StdEncoding.EncodeToString`). -/
def base64EncodeBytes : List Nat → List Char
  | [] => []
  | [b1] => [b64Chr (b1 / 4), b64Chr ((b1 % 4) * 16), '=', '=']
  | [b1, b2] =>
    [b64Chr (b1 / 4), b64Chr ((b1 % 4) * 16 + b2 / 16),
     b64Chr ((b2 % 16) * 4), '=']
  | b1 :: b2 :: b3 :: rest =>
    b64Chr (b1 / 4) :: b64Chr ((b1 % 4) * 16 + b2 / 16) ::
      b64Chr ((b2 % 16) * 4 + b3 / 64) :: b64Chr (b3 % 64) ::
      base64EncodeBytes rest

/-- `base64.StdEncoding.EncodeToString` of a string's bytes (characters
viewed as their code points; exact for ASCII credentials). -/
def base64Encode (s : String) : String :=
  String.mk (base64EncodeBytes (s.data.map Char.toNat))

/- ## Credential extractor (`usernameFromRequest`, main.go 86-101) -/

/-- The three failure classes of the credential extractor (spec §4.1);
they correspond in order to the `"no auth"`, `"unsupported auth"` and
base64 errors of `usernameFromRequest`. -/
inductive AuthErr where
  | authMissing
  | authSchemeUnsupported
  | authMalformed
deriving DecidableEq, Repr

/-- `strings.SplitN(string(b), ":", 2)[0]`: everything before the first
colon, or the whole string when there is none. -/
def beforeFirstColon (s : String) : String :=
  String.mk (takeBeforeChar ':' s.data)

/-- `usernameFromRequest` (main.go 86-101).  The header value is a plain
string; Go's `Header.Get` maps an absent header to `""`, so `""` stands
for the absent header exactly as in the source's `auth == ""` test. -/
def usernameFromRequest (auth : String) : Except AuthErr String :=
  if auth = "" then .error .authMissing
  else
    match splitFirst ' ' auth.data with
    | none => .error .authSchemeUnsupported
    | some (tok, val) =>
      if goToLower (String.mk tok) ≠ "basic" then .error .authSchemeUnsupported
      else
        match base64DecodeStr (String.mk val) with
        | none => .error .authMalformed
        | some s => .ok (beforeFirstColon s)

/-- The scheme token of a header value: the part before the first space,
or the whole value when it has no space (`strings.SplitN(auth," ",2)[0]`). -/
def schemeToken (auth : String) : String :=
  String.mk (takeBeforeChar ' ' auth.data)

/- ## URL parsing (Go `net/url.Parse`, used by the admin handler) -/

/-- Userinfo of a parsed URL: `url.URL.User`.  `password = none` models
Go's `Password()` second return being `false`. -/
structure Userinfo where
  username : String
  password : Option String
deriving DecidableEq, Repr

/-- The fields of Go's `url.URL` that the gateway reads: `Scheme`,
`User`, `Host` (which, as in Go, still contains the `:port` suffix) and
the remaining path text. -/
structure GoURL where
  scheme : String
  userinfo : Option Userinfo
  host : String
  path : String
deriving DecidableEq, Repr

/-- Valid characters of a URL scheme (`net/url` `getScheme`): letters
anywhere; digits, `+`, `-`, `.` after the first character. -/
def schemeChar (first : Bool) (c : Char) : Bool :=
  (('a' ≤ c ∧ c ≤ 'z') ∨ ('A' ≤ c ∧ c ≤ 'Z')) ∨
    (¬ first ∧ (('0' ≤ c ∧ c ≤ '9') ∨ c = '+' ∨ c = '-' ∨ c = '.'))

/-- Outcome of scheme extraction: hard failure (`":"` with an empty
scheme), no scheme (the whole input is the remainder), or a scheme plus
the text after the colon. -/
inductive SchemeRes where
  | err
  | noScheme
  | found (scheme : List Char) (rest : List Char)
deriving DecidableEq, Repr

/-- Scan for `scheme:` (`net/url` `getScheme`): a colon right at the
start is an error; an invalid character before any colon means the whole
input is scheme-less. -/
def getSchemeAux (acc : List Char) : List Char → SchemeRes
  | [] => .noScheme
  | c :: rest =>
    if c = ':' then
      if acc = [] then .err else .found acc.reverse rest
    else if schemeChar acc.isEmpty c then getSchemeAux (c :: acc) rest
    else .noScheme

def getScheme (cs : List Char) : SchemeRes := getSchemeAux [] cs

/-- Host (with optional port) of an authority, `net/url` `parseHost` for
non-bracketed hosts: a space is an invalid host character; everything
after the last colon must be digits (possibly empty).  The `Host` field
keeps the port, as in Go. -/
def parseHost (cs : List Char) : Option String :=
  if cs.contains ' ' then none
  else
    match splitLast ':' cs with
    | some (_, port) => if port.all Char.isDigit then some (String.mk cs) else none
    | none => some (String.mk cs)

/-- Userinfo text split at the first colon (Go `url.User` /
`url.UserPassword`; percent-decoding is not modelled — the gateway's
inputs carry none). -/
def parseUserinfo (cs : List Char) : Userinfo :=
  match splitFirst ':' cs with
  | none => ⟨String.mk cs, none⟩
  | some (u, p) => ⟨String.mk u, some (String.mk p)⟩

/-- Authority `[userinfo@]host`: userinfo is everything before the LAST
`@` (`strings.LastIndex`), then the host is validated. -/
def parseAuthority (auth : List Char) : Option (Option Userinfo × String) :=
  match splitLast '@' auth with
  | none => (parseHost auth).map fun h => (none, h)
  | some (ui, hostcs) => (parseHost hostcs).map fun h => (some (parseUserinfo ui), h)

/-- Everything after the scheme: `//authority/path`, or a scheme-less
string (whose first path segment may not contain a colon), or an opaque
remainder for a URL that has a scheme but no `//`. -/
def parseAfterScheme (scheme : String) (rest : List Char) : Option GoURL :=
  if rest.take 2 = ['/', '/'] then
    let body := rest.drop 2
    let authority := takeBeforeChar '/' body
    let path := body.drop authority.length
    match parseAuthority authority with
    | none => none
    | some (ui, host) => some ⟨scheme, ui, host, String.mk path⟩
  else if scheme = "" then
    if (takeBeforeChar '/' rest).contains ':' then none
    else some ⟨"", none, "", String.mk rest⟩
  else some ⟨scheme, none, "", String.mk rest⟩

/-- Modelled from the Go standard library `net/url.Parse` (external to
this repository), restricted to the URL shapes the gateway handles:
ASCII control characters are rejected; a well-formed `scheme:` prefix is
split off and lower-cased; with a `//` authority the userinfo is taken
before the last `@`, a host containing a space or a non-numeric port is
rejected; a scheme-less string whose first path segment contains a colon
is rejected; other strings parse as path/opaque URLs.  (IPv6 bracket
hosts, query/fragment splitting and percent-decoding are outside the
gateway's inputs and not modelled.) -/
def goURLParse (raw : String) : Option GoURL :=
  let cs := raw.data
  if cs.any (fun c => c.toNat < 32 ∨ c.toNat = 127) then none
  else
    match getScheme cs with
    | .err => none
    | .noScheme => parseAfterScheme "" cs
    | .found sch rest => parseAfterScheme (goToLower (String.mk sch)) rest

/- ## Registries and server state (main.go 21-50) -/

/-- A transport connection handle (`net.Conn`), identified by a number. -/
abbrev Conn := Nat

/-- `type Upstream struct { Raw string; URL *url.URL }`; `URL = none`
models a nil pointer. -/
structure Upstream where
  Raw : String
  URL : Option GoURL
deriving DecidableEq, Repr

/-- The two global registries of main.go: `upstreams` (user → spec) and
`userConns` (user → slice of live connections; a missing key is the
empty slice, as for a Go nil slice). -/
structure ServerState where
  upstreams : String → Option Upstream
  userConns : String → List Conn

/-- Observable actions of the embedded handlers, in program order. -/
inductive Event where
  | upstreamSet (user : String) (up : Upstream)
  | drain (user : String)
  | close (c : Conn)
  | register (user : String) (c : Conn)
  | writeClient (c : Conn) (data : String)
  | writeUpstream (data : String)
  | dialTCP (host : String)
  | dialTarget (addr : String)
  | lookup (user : String)
deriving DecidableEq, Repr

/-- `registerConn` (main.go 35-39): append the handle to the user's
slice. -/
def registerConn (user : String) (c : Conn) (st : ServerState) : ServerState :=
  { st with userConns := fun u => if u = user then st.userConns u ++ [c] else st.userConns u }

/-- `closeUserConns` (main.go 42-50): under the lock, take the user's
slice and delete the entry; then close each taken handle in order. -/
def closeUserConns (user : String) (st : ServerState) : ServerState × List Event :=
  let conns := st.userConns user
  ({ st with userConns := fun u => if u = user then [] else st.userConns u },
   Event.drain user :: conns.map Event.close)

/- ## Admin mutator (`setUpstreamHandler`, main.go 53-84) -/

/-- A decoded admin request body. -/
structure AdminReq where
  user : String
  password : String
  upstream : String
deriving DecidableEq, Repr

/-- An HTTP response of the admin endpoint (status and body text;
`http.Error` appends a newline; a bare `WriteHeader` has empty body). -/
structure HttpResponse where
  status : Nat
  body : String
deriving DecidableEq, Repr

/-- `setUpstreamHandler` (main.go 53-84).  `parse` stands for
`url.Parse`; `body = none` models a JSON decode failure (JSON mechanics
are an external collaborator).  Returns the new state, the events in
program order, and the response. -/
def setUpstreamHandler (parse : String → Option GoURL) (method : String)
    (body : Option AdminReq) (st : ServerState) :
    ServerState × List Event × HttpResponse :=
  if method ≠ "POST" then (st, [], ⟨405, "method not allowed\n"⟩)
  else
    match body with
    | none => (st, [], ⟨400, "invalid json\n"⟩)
    | some req =>
      match parse req.upstream with
      | none => (st, [], ⟨400, "bad upstream url\n"⟩)
      | some u =>
        let newUp : Upstream := ⟨req.upstream, some u⟩
        let st1 : ServerState :=
          { st with upstreams := fun x => if x = req.user then some newUp else st.upstreams x }
        let drained := closeUserConns req.user st1
        (drained.1, Event.upstreamSet req.user newUp :: drained.2, ⟨204, ""⟩)

/- ## Routing and dialer factory (main.go 103-131) -/

/-- The default upstream built inline in `pickUpstreamFor`
(`&Upstream{Raw: "direct", URL: &url.URL{Scheme: "direct"}}`). -/
def defaultDirect : Upstream := ⟨"direct", some ⟨"direct", none, "", ""⟩⟩

/-- `pickUpstreamFor` (main.go 103-111): the username is taken from the
extractor with the error ignored (a Go zero-value `""` on failure), then
looked up, defaulting to the direct upstream. -/
def pickUpstreamFor (st : ServerState) (auth : String) : Upstream :=
  let user := match usernameFromRequest auth with
    | .ok u => u
    | .error _ => ""
  match st.upstreams user with
  | some u => u
  | none => defaultDirect

/-- The dialer capabilities `dialerFor` can produce. -/
inductive Dialer where
  | fromEnvironment
  | socks5 (host : String) (auth : Option (String × String))
  | httpConnect (upstreamURL : GoURL)
deriving DecidableEq, Repr

/-- `dialerFor` (main.go 113-131).  A nil upstream or URL, or scheme
`"direct"`, gives the environment dialer; `socks5` builds a SOCKS5
dialer with the embedded credentials (password defaulting to `""`);
`http`/`https` build the CONNECT dialer; anything else is the
`unsupported scheme` error. -/
def dialerFor (up : Option Upstream) : Except String Dialer :=
  match up with
  | none => .ok .fromEnvironment
  | some u =>
    match u.URL with
    | none => .ok .fromEnvironment
    | some url =>
      if url.scheme = "direct" then .ok .fromEnvironment
      else if url.scheme = "socks5" then
        .ok (.socks5 url.host (url.userinfo.map fun ui => (ui.username, ui.password.getD "")))
      else if url.scheme = "http" ∨ url.scheme = "https" then
        .ok (.httpConnect url)
      else .error ("unsupported scheme: " ++ url.scheme)

/- ## HTTP CONNECT dialer (`httpConnectDialer.Dial`, main.go 138-170) -/

/-- The exact request bytes built in `Dial` (main.go 144-151):
`fmt.Sprintf("CONNECT %s HTTP/1.1\r\nHost: %s\r\n", addr, addr)`, the
optional `Proxy-Authorization` line when `URL.User` is non-nil, then the
blank-line terminator. -/
def connectRequestBytes (u : GoURL) (addr : String) : String :=
  "CONNECT " ++ addr ++ " HTTP/1.1\r\n" ++ "Host: " ++ addr ++ "\r\n" ++
    (match u.userinfo with
     | some ui =>
       "Proxy-Authorization: Basic " ++
         base64Encode (ui.username ++ ":" ++ ui.password.getD "") ++ "\r\n"
     | none => "") ++
    "\r\n"

/-- Outcome of `http.ReadResponse` on the upstream connection: a read
error, or a response with a status code. -/
inductive ReadResult where
  | failed
  | status (code : Nat)
deriving DecidableEq, Repr

/-- `httpConnectDialer.Dial` (main.go 138-170).  External outcomes are
parameters: `tcp` is the result of `net.DialTimeout` (`none` = dial
error), `writeOk` whether `conn.Write` succeeds, `resp` the
`http.ReadResponse` outcome.  Returns the events (TCP dial, the write of
the request bytes, closes) and the usable connection, `none` on
failure. -/
def httpConnectDial (u : GoURL) (addr : String) (tcp : Option Conn)
    (writeOk : Bool) (resp : ReadResult) : List Event × Option Conn :=
  match tcp with
  | none => ([Event.dialTCP u.host], none)
  | some conn =>
    let evs0 := [Event.dialTCP u.host, Event.writeUpstream (connectRequestBytes u addr)]
    if ¬ writeOk then (evs0 ++ [Event.close conn], none)
    else
      match resp with
      | .failed => (evs0 ++ [Event.close conn], none)
      | .status code =>
        if code ≠ 200 then (evs0 ++ [Event.close conn], none)
        else (evs0, some conn)

/- ## Relay and tunnel handler (main.go 173-225) -/

/-- `relay` (main.go 173-180): both copy directions end, then the
deferred closes run in LIFO order (`b` then `a`).  The user-connection
registry is not touched. -/
def relayEvents (a b : Conn) : List Event := [Event.close b, Event.close a]

/-- A tunnel request as the handler reads it: the
`Proxy-Authorization` header value (`""` = absent), the method, and
`r.Host` (the CONNECT target). -/
structure ProxyRequest where
  auth : String
  method : String
  host : String
deriving DecidableEq, Repr

/-- How a `proxyHandler` call ends, one constructor per exit of
main.go 182-225. -/
inductive ProxyOutcome where
  | authRequired
  | invalidUpstream
  | badMethod
  | hijackUnsupported
  | hijackFailed
  | badGateway
  | relayed
deriving DecidableEq, Repr

/-- The literal handshake reply of main.go 223. -/
def reply200 : String := "HTTP/1.1 200 Connection established\r\n\r\n"

/-- The literal failure line of main.go 218. -/
def reply502 : String := "HTTP/1.1 502 Bad Gateway\r\n\r\n"

/-- `proxyHandler` (main.go 182-225), with the external outcomes as
parameters: `hijackSupported` whether the ResponseWriter is a Hijacker,
`hijackConn` the hijacked client connection (`none` = `Hijack` error),
`dialResult` the target connection produced by the dialer (`none` = dial
error).  The source order is kept: credential extraction, upstream
lookup, dialer construction, method check, hijack, registration, dial,
handshake reply, relay. -/
def proxyHandler (req : ProxyRequest) (hijackSupported : Bool)
    (hijackConn : Option Conn) (dialResult : Option Conn) (st : ServerState) :
    ServerState × List Event × ProxyOutcome :=
  match usernameFromRequest req.auth with
  | .error _ => (st, [], .authRequired)
  | .ok user =>
    let up := pickUpstreamFor st req.auth
    match dialerFor (some up) with
    | .error _ => (st, [Event.lookup user], .invalidUpstream)
    | .ok _ =>
      if req.method ≠ "CONNECT" then (st, [Event.lookup user], .badMethod)
      else if ¬ hijackSupported then (st, [Event.lookup user], .hijackUnsupported)
      else
        match hijackConn with
        | none => (st, [Event.lookup user], .hijackFailed)
        | some clientConn =>
          let st1 := registerConn user clientConn st
          match dialResult with
          | none =>
            (st1,
             [Event.lookup user, Event.register user clientConn,
              Event.dialTarget req.host, Event.writeClient clientConn reply502,
              Event.close clientConn],
             .badGateway)
          | some targetConn =>
            (st1,
             [Event.lookup user, Event.register user clientConn,
              Event.dialTarget req.host, Event.writeClient clientConn reply200] ++
               relayEvents clientConn targetConn,
             .relayed)

/- ## Trace ordering -/

/-- `occursBefore p q evs` holds when no `q`-event appears in `evs`
before the first `p`-event: every `q`-event is strictly preceded by a
`p`-event. -/
def occursBefore (p q : Event → Bool) : List Event → Bool
  | [] => true
  | e :: rest => if q e then false else if p e then true else occursBefore p q rest

/- ## Concrete fixtures used by witnesses and counterexamples -/

/-- The empty server state: no configured upstreams, no connections. -/
def st0 : ServerState := ⟨fun _ => none, fun _ => []⟩

/-- A state with live connections `[1, 2]` for alice and `[5]` for bob. -/
def stW : ServerState :=
  ⟨fun _ => none, fun u => if u = "alice" then [1, 2] else if u = "bob" then [5] else []⟩

/-- Admin request switching alice to a SOCKS5 upstream. -/
def reqW : AdminReq := ⟨"alice", "pw", "socks5://h:1080"⟩

/-- `goURLParse "socks5://h:1080"`. -/
def socksURLW : GoURL := ⟨"socks5", none, "h:1080", ""⟩

/-- The stored upstream for `reqW`. -/
def upW : Upstream := ⟨"socks5://h:1080", some socksURLW⟩

/-- A CONNECT request authenticated as `user` (`dXNlcjpwdw==` is
base64 of `user:pw`). -/
def tunnelReq : ProxyRequest := ⟨"Basic dXNlcjpwdw==", "CONNECT", "example.com:443"⟩

/-- Admin request pointing `user` at an `ftp` upstream. -/
def ftpReq : AdminReq := ⟨"user", "pw", "ftp://h:1"⟩

/- ## Claims -/

/-- C1: a successful admin update for user `req.user` responds 204 and
performs, in this order: the Upstream Registry entry is replaced with
the newly parsed specification, then the user's Connection Registry
entry is taken and cleared (the drain), then every handle obtained in
the drain is force-closed; every connection registered before the drain
is closed by the call, and subsequent lookups for the user return the
new specification. -/
theorem adminUpdate_ordering (parse : String → Option GoURL) (req : AdminReq)
    (u : GoURL) (st : ServerState) (hp : parse req.upstream = some u) :
    (setUpstreamHandler parse "POST" (some req) st).2.2 = ⟨204, ""⟩ ∧
    (setUpstreamHandler parse "POST" (some req) st).2.1 =
      Event.upstreamSet req.user ⟨req.upstream, some u⟩ ::
        Event.drain req.user :: (st.userConns req.user).map Event.close ∧
    (setUpstreamHandler parse "POST" (some req) st).1.upstreams req.user =
      some ⟨req.upstream, some u⟩ ∧
    (setUpstreamHandler parse "POST" (some req) st).1.userConns req.user = [] ∧
    (∀ c, c ∈ st.userConns req.user →
      Event.close c ∈ (setUpstreamHandler parse "POST" (some req) st).2.1) ∧
    (∀ auth, usernameFromRequest auth = Except.ok req.user →
      pickUpstreamFor (setUpstreamHandler parse "POST" (some req) st).1 auth =
        ⟨req.upstream, some u⟩) := by
  refine ⟨by simp [setUpstreamHandler, closeUserConns, hp],
          by simp [setUpstreamHandler, closeUserConns, hp],
          by simp [setUpstreamHandler, closeUserConns, hp],
          by simp [setUpstreamHandler, closeUserConns, hp],
          by simp [setUpstreamHandler, closeUserConns, hp], ?_⟩
  intro auth hauth
  simp only [setUpstreamHandler, closeUserConns, hp, ne_eq, reduceIte]
  simp [pickUpstreamFor, hauth]

/-- Witness for C1: alice's update with `socks5://h:1080` on a state
where alice holds connections `[1, 2]`. -/
theorem adminUpdate_ordering_witness :
    (setUpstreamHandler goURLParse "POST" (some reqW) stW).2.2 = ⟨204, ""⟩ ∧
    (setUpstreamHandler goURLParse "POST" (some reqW) stW).2.1 =
      Event.upstreamSet "alice" upW :: Event.drain "alice" ::
        (stW.userConns "alice").map Event.close ∧
    (setUpstreamHandler goURLParse "POST" (some reqW) stW).1.upstreams "alice" =
      some upW :=
  ⟨(adminUpdate_ordering goURLParse reqW socksURLW stW rfl).1,
   (adminUpdate_ordering goURLParse reqW socksURLW stW rfl).2.1,
   (adminUpdate_ordering goURLParse reqW socksURLW stW rfl).2.2.1⟩

/-- C6: an admin POST whose upstream string fails to parse is answered
with 400 (`bad upstream url`) and leaves the whole state untouched, with
no connection closed or removed: the handler returns before either
registry is reached. -/
theorem adminParseFailure_noStateChange (parse : String → Option GoURL)
    (req : AdminReq) (st : ServerState) (hp : parse req.upstream = none) :
    setUpstreamHandler parse "POST" (some req) st = (st, [], ⟨400, "bad upstream url\n"⟩) := by
  simp [setUpstreamHandler, hp]

/-- Witness for C6: `http://ho st` (space in the host) fails Go URL
parsing, so the request is rejected with no state change. -/
theorem adminParseFailure_noStateChange_witness :
    setUpstreamHandler goURLParse "POST" (some ⟨"alice", "pw", "http://ho st"⟩) st0 =
      (st0, [], ⟨400, "bad upstream url\n"⟩) :=
  adminParseFailure_noStateChange goURLParse ⟨"alice", "pw", "http://ho st"⟩ st0 rfl

/-- C7: an admin request for `req.user` leaves any other user's Upstream
Registry entry and Connection Registry entry unchanged, and every
connection it closes was registered under `req.user`. -/
theorem adminUpdate_frame (parse : String → Option GoURL) (m : String)
    (req : AdminReq) (st : ServerState) (B : String) (hne : B ≠ req.user) :
    (setUpstreamHandler parse m (some req) st).1.upstreams B = st.upstreams B ∧
    (setUpstreamHandler parse m (some req) st).1.userConns B = st.userConns B ∧
    ∀ c, Event.close c ∈ (setUpstreamHandler parse m (some req) st).2.1 →
      c ∈ st.userConns req.user := by
  by_cases hm : m = "POST"
  · subst hm
    cases hp : parse req.upstream with
    | none => simp [setUpstreamHandler, hp]
    | some u =>
      refine ⟨by simp [setUpstreamHandler, closeUserConns, hp, hne],
              by simp [setUpstreamHandler, closeUserConns, hp, hne], ?_⟩
      intro c hc
      simp [setUpstreamHandler, closeUserConns, hp] at hc
      exact hc
  · simp [setUpstreamHandler, hm]

/-- Witness for C7: alice's update leaves bob's registry entries
untouched. -/
theorem adminUpdate_frame_witness :
    (setUpstreamHandler goURLParse "POST" (some reqW) stW).1.upstreams "bob" =
      stW.upstreams "bob" ∧
    (setUpstreamHandler goURLParse "POST" (some reqW) stW).1.userConns "bob" =
      stW.userConns "bob" :=
  ⟨(adminUpdate_frame goURLParse "POST" reqW stW "bob" (by decide)).1,
   (adminUpdate_frame goURLParse "POST" reqW stW "bob" (by decide)).2.1⟩

/-- C2 (code bug evidence): a tunnel for `user` on an empty state runs
to completion — the relay returns having closed both the client handle 7
and the target handle 8 — yet the client handle is still present in the
Connection Registry entry for `user`: neither `relay` nor any code on
the tunnel's natural-end path removes it, contradicting the claimed
removal at tunnel end (and the source's own description of `userConns`
as the active connections per user). -/
theorem relay_leaves_handle_registered :
    (proxyHandler tunnelReq true (some 7) (some 8) st0).2.2 = ProxyOutcome.relayed ∧
    Event.close 7 ∈ (proxyHandler tunnelReq true (some 7) (some 8) st0).2.1 ∧
    Event.close 8 ∈ (proxyHandler tunnelReq true (some 7) (some 8) st0).2.1 ∧
    (proxyHandler tunnelReq true (some 7) (some 8) st0).1.userConns "user" = [7] := by
  refine ⟨rfl, by decide, by decide, rfl⟩

/-- Predicate for the registration event of a given user and handle. -/
def isRegisterEv (user : String) (c : Conn) : Event → Bool := fun e =>
  match e with
  | .register u2 c2 => u2 == user && c2 == c
  | _ => false

/-- Predicate for any byte written to a given client connection. -/
def isWriteClientEv (c : Conn) : Event → Bool := fun e =>
  match e with
  | .writeClient c2 _ => c2 == c
  | _ => false

/-- C3: on every path of the tunnel handler that reaches successful
detachment (auth ok, dialer built, CONNECT method, hijack succeeded),
the detached client connection is registered under the user's key
strictly before any byte is written to that connection — in particular
before the `200 Connection established` handshake reply. -/
theorem register_before_handshake (req : ProxyRequest) (user : String)
    (c : Conn) (dial : Option Conn) (st : ServerState) (d : Dialer)
    (hauth : usernameFromRequest req.auth = Except.ok user)
    (hd : dialerFor (some (pickUpstreamFor st req.auth)) = Except.ok d)
    (hm : req.method = "CONNECT") :
    occursBefore (isRegisterEv user c) (isWriteClientEv c)
      (proxyHandler req true (some c) dial st).2.1 = true := by
  unfold proxyHandler
  rw [hauth]
  cases dial <;>
    simp [hd, hm, occursBefore, isRegisterEv, isWriteClientEv, relayEvents]

/-- Witness for C3: the concrete tunnel of `tunnelReq` with client
handle 7 and target handle 8 on the empty state. -/
theorem register_before_handshake_witness :
    occursBefore (isRegisterEv "user" 7) (isWriteClientEv 7)
      (proxyHandler tunnelReq true (some 7) (some 8) st0).2.1 = true :=
  register_before_handshake tunnelReq "user" 7 (some 8) st0 .fromEnvironment rfl rfl rfl

/-- C8 counterexample: a GET request that passes credential extraction
(as `user`) does NOT get the claimed 400 bad-request when that user's
stored upstream has an unsupported scheme: dialer construction runs
before the method check, so the handler exits with the 500
`invalid upstream` response instead.  The upstream lookup and dialer
construction therefore precede the method check, contrary to the
claim. -/
theorem nonConnect_can_get_invalidUpstream :
    usernameFromRequest "Basic dXNlcjpwdw==" = Except.ok "user" ∧
    (proxyHandler ⟨"Basic dXNlcjpwdw==", "GET", "t:80"⟩ true (some 7) (some 8)
        (setUpstreamHandler goURLParse "POST" (some ftpReq) st0).1).2.2 =
      ProxyOutcome.invalidUpstream ∧
    ProxyOutcome.invalidUpstream ≠ ProxyOutcome.badMethod :=
  ⟨rfl, rfl, by decide⟩

/-- C8 amended: the method check runs after the upstream lookup and
dialer construction, but before transport detachment.  When credential
extraction and dialer construction both succeed and the method is not
CONNECT, the handler stops with the bad-request outcome, the state is
unchanged (no hijack, no registration) and the only preceding action is
the upstream lookup. -/
theorem methodCheck_after_dialer_before_hijack (req : ProxyRequest) (user : String)
    (hs : Bool) (hc dial : Option Conn) (st : ServerState) (d : Dialer)
    (hauth : usernameFromRequest req.auth = Except.ok user)
    (hd : dialerFor (some (pickUpstreamFor st req.auth)) = Except.ok d)
    (hm : req.method ≠ "CONNECT") :
    proxyHandler req hs hc dial st = (st, [Event.lookup user], ProxyOutcome.badMethod) := by
  unfold proxyHandler
  rw [hauth]
  simp [hd, hm]

/-- Witness for C8's amended claim: a GET request as `user` against the
empty state (direct upstream, environment dialer). -/
theorem methodCheck_witness :
    proxyHandler ⟨"Basic dXNlcjpwdw==", "GET", "t:80"⟩ true (some 7) (some 8) st0 =
      (st0, [Event.lookup "user"], ProxyOutcome.badMethod) :=
  methodCheck_after_dialer_before_hijack ⟨"Basic dXNlcjpwdw==", "GET", "t:80"⟩ "user"
    true (some 7) (some 8) st0 .fromEnvironment rfl rfl (by decide)

/-- C4: on the CONNECT dial with an established upstream TCP connection
and a successful write, the bytes written upstream are exactly the
`CONNECT addr HTTP/1.1` line, a `Host` header equal to `addr`, a
`Proxy-Authorization: Basic base64(user:pass)` header exactly when
credentials are embedded in the upstream URL, and a blank-line
terminator; the dial succeeds returning the same already-open connection
exactly when the one response read back has status 200 (with nothing
further written — raw bytes from then on are payload), and on any other
status or a read failure it fails with the upstream connection
closed. -/
theorem httpConnect_protocol (u : GoURL) (addr : String) (c : Conn) (resp : ReadResult) :
    (u.userinfo = none →
      connectRequestBytes u addr =
        "CONNECT " ++ addr ++ " HTTP/1.1\r\n" ++ "Host: " ++ addr ++ "\r\n" ++ "\r\n") ∧
    (∀ ui, u.userinfo = some ui →
      connectRequestBytes u addr =
        "CONNECT " ++ addr ++ " HTTP/1.1\r\n" ++ "Host: " ++ addr ++ "\r\n" ++
          ("Proxy-Authorization: Basic " ++
            base64Encode (ui.username ++ ":" ++ ui.password.getD "") ++ "\r\n") ++ "\r\n") ∧
    Event.writeUpstream (connectRequestBytes u addr) ∈
      (httpConnectDial u addr (some c) true resp).1 ∧
    (∀ s, Event.writeUpstream s ∈ (httpConnectDial u addr (some c) true resp).1 →
      s = connectRequestBytes u addr) ∧
    ((httpConnectDial u addr (some c) true resp).2 = some c ↔
      resp = ReadResult.status 200) ∧
    ((httpConnectDial u addr (some c) true resp).2 = none →
      Event.close c ∈ (httpConnectDial u addr (some c) true resp).1) ∧
    (resp = ReadResult.status 200 →
      (httpConnectDial u addr (some c) true resp).1 =
        [Event.dialTCP u.host, Event.writeUpstream (connectRequestBytes u addr)]) := by
  refine ⟨fun h => by simp [connectRequestBytes, h],
          fun ui h => by simp only [connectRequestBytes, h],
          ?_, ?_, ?_, ?_, ?_⟩ <;>
    cases resp with
    | failed => simp [httpConnectDial]
    | status code =>
      by_cases h200 : code = 200 <;> simp [httpConnectDial, h200]

/-- `goURLParse "http://u:p@h:8080"`, an upstream with embedded
credentials. -/
def httpURLW : GoURL := ⟨"http", some ⟨"u", some "p"⟩, "h:8080", ""⟩

/-- Witness for C4: the CONNECT dial through `http://u:p@h:8080` to
`t:443` on connection 3 with a 200 reply. -/
theorem httpConnect_protocol_witness :
    Event.writeUpstream (connectRequestBytes httpURLW "t:443") ∈
      (httpConnectDial httpURLW "t:443" (some 3) true (ReadResult.status 200)).1 ∧
    ((httpConnectDial httpURLW "t:443" (some 3) true (ReadResult.status 200)).2 = some 3 ↔
      ReadResult.status 200 = ReadResult.status 200) ∧
    connectRequestBytes httpURLW "t:443" =
      "CONNECT " ++ "t:443" ++ " HTTP/1.1\r\n" ++ "Host: " ++ "t:443" ++ "\r\n" ++
        "Proxy-Authorization: Basic " ++
          base64Encode ("u" ++ ":" ++ "p") ++ "\r\n" ++ "\r\n" :=
  ⟨(httpConnect_protocol httpURLW "t:443" 3 (ReadResult.status 200)).2.2.1,
   (httpConnect_protocol httpURLW "t:443" 3 (ReadResult.status 200)).2.2.2.2.1,
   (httpConnect_protocol httpURLW "t:443" 3 (ReadResult.status 200)).2.1 ⟨"u", some "p"⟩ rfl⟩

/-- C5 counterexample: for the header value `"Basic"` the scheme token
(the text before the first space — here the whole value) IS `basic`
case-insensitively, yet the extractor fails with the scheme-unsupported
error, because `strings.SplitN(auth, " ", 2)` yields a single part; so
"fails with AuthSchemeUnsupported exactly when the scheme token is not
basic" is false as stated. -/
theorem basic_token_but_schemeUnsupported :
    goToLower (schemeToken "Basic") = "basic" ∧
    usernameFromRequest "Basic" = Except.error AuthErr.authSchemeUnsupported :=
  ⟨rfl, rfl⟩

/-- C5 amended: the extractor fails with the missing-auth error exactly
when the header value is absent (empty); with the scheme-unsupported
error exactly when the value does not split into a scheme token and a
value around a space, or the scheme token is not `basic`
case-insensitively; with the malformed error exactly when the scheme is
well-formed `basic` but base64 decoding of the value fails; and
otherwise succeeds with the substring of the decoded value before the
first colon as the username. -/
theorem usernameFromRequest_classification (auth : String) :
    (usernameFromRequest auth = Except.error AuthErr.authMissing ↔ auth = "") ∧
    (usernameFromRequest auth = Except.error AuthErr.authSchemeUnsupported ↔
      auth ≠ "" ∧ (splitFirst ' ' auth.data = none ∨
        ∃ tok val, splitFirst ' ' auth.data = some (tok, val) ∧
          goToLower (String.mk tok) ≠ "basic")) ∧
    (usernameFromRequest auth = Except.error AuthErr.authMalformed ↔
      auth ≠ "" ∧ ∃ tok val, splitFirst ' ' auth.data = some (tok, val) ∧
        goToLower (String.mk tok) = "basic" ∧
        base64DecodeStr (String.mk val) = none) ∧
    (∀ tok val s, splitFirst ' ' auth.data = some (tok, val) →
      goToLower (String.mk tok) = "basic" →
      base64DecodeStr (String.mk val) = some s →
      auth ≠ "" →
      usernameFromRequest auth = Except.ok (beforeFirstColon s)) := by
  by_cases h0 : auth = ""
  · subst h0
    simp [usernameFromRequest]
  · cases hsp : splitFirst ' ' auth.data with
    | none => simp [usernameFromRequest, h0, hsp]
    | some p =>
      obtain ⟨tok, val⟩ := p
      by_cases hb : goToLower (String.mk tok) = "basic"
      · cases hdec : base64DecodeStr (String.mk val) with
        | none =>
          simp only [usernameFromRequest, h0, hsp, hb, hdec]
          simp [h0, hsp, hb, hdec]
          exact ⟨⟨tok, val, ⟨rfl, rfl⟩, hb, hdec⟩,
                 fun tok1 val1 s h1 h2 hb2 => by subst h1; subst h2; simp [hdec]⟩
        | some s =>
          simp [usernameFromRequest, h0, hsp, hb, hdec]
          intro tok1 val1 s1 h1 h2 hb2 hd2
          subst h1; subst h2
          rw [hdec] at hd2
          simp only [Option.some.injEq] at hd2
          subst hd2
          rfl
      · simp [usernameFromRequest, h0, hsp, hb]
        intro tok1 val1 s h1 h2 hb2
        subst h1; subst h2
        exact absurd hb2 hb

/-- Witness for C5's amended claim: `Basic dXNlcjpwdw==` (base64 of
`user:pw`) succeeds with the part before the colon. -/
theorem usernameFromRequest_classification_witness :
    usernameFromRequest "Basic dXNlcjpwdw==" = Except.ok (beforeFirstColon "user:pw") :=
  (usernameFromRequest_classification "Basic dXNlcjpwdw==").2.2.2
    "Basic".data "dXNlcjpwdw==".data "user:pw" rfl rfl rfl (by decide)

/-- C9 counterexample: `ftp://h:1` parses as a URL although its scheme
is outside the documented grammar `{direct, socks5, http, https}`, and
the admin endpoint answers 204 — not the claimed 400 — storing the
upstream as-is. -/
theorem unknownScheme_accepted_with_204 :
    (goURLParse "ftp://h:1").map GoURL.scheme = some "ftp" ∧
    "ftp" ∉ (["direct", "socks5", "http", "https"] : List String) ∧
    (setUpstreamHandler goURLParse "POST" (some ftpReq) st0).2.2 = ⟨204, ""⟩ :=
  ⟨rfl, by decide, rfl⟩

/-- C9 amended: a POST to the admin endpoint is answered 204 with empty
body exactly when the body is valid JSON and the upstream string parses
as a URL (`url.Parse` succeeds — no scheme restriction at this point),
and 400 otherwise; schemes outside `{direct, socks5, http, https}` are
only rejected later, at dialer construction during tunnel handling. -/
theorem adminResponse_characterization (body : Option AdminReq) (st : ServerState) :
    ((setUpstreamHandler goURLParse "POST" body st).2.2 = ⟨204, ""⟩ ↔
      ∃ req, body = some req ∧ ∃ u, goURLParse req.upstream = some u) ∧
    ((setUpstreamHandler goURLParse "POST" body st).2.2.status = 400 ↔
      ¬ ∃ req, body = some req ∧ ∃ u, goURLParse req.upstream = some u) := by
  cases body with
  | none => simp [setUpstreamHandler]
  | some req =>
    cases hp : goURLParse req.upstream with
    | none => simp [setUpstreamHandler, hp]
    | some u => simp [setUpstreamHandler, closeUserConns, hp]

/-- `takeBeforeChar` is the identity when the separator is absent. -/
theorem takeBeforeChar_of_not_mem (sep : Char) (cs : List Char) (h : sep ∉ cs) :
    takeBeforeChar sep cs = cs := by
  induction cs with
  | nil => rfl
  | cons c rest ih =>
    simp only [List.mem_cons] at h
    push_neg at h
    rw [takeBeforeChar, if_neg (fun hc => h.1 hc.symm), ih h.2]

/-- C10: when the Basic header value decodes to a string with no colon,
the extractor succeeds and returns the entire decoded string as the
username (in particular the empty decoded string yields the empty
username), and routing then looks that string up in the Upstream
Registry. -/
theorem noColon_full_username (value s : String)
    (hdec : base64DecodeStr value = some s) (hnc : ':' ∉ s.data) :
    usernameFromRequest ("Basic " ++ value) = Except.ok s ∧
    ∀ st : ServerState, pickUpstreamFor st ("Basic " ++ value) =
      (match st.upstreams s with
       | some u => u
       | none => defaultDirect) := by
  have hdata : ("Basic " ++ value).data =
      'B' :: 'a' :: 's' :: 'i' :: 'c' :: ' ' :: value.data := by
    rw [String.data_append]; rfl
  have hne : ("Basic " ++ value) ≠ "" := by
    intro h
    have h2 := congrArg String.data h
    rw [hdata] at h2
    cases h2
  have hsp : splitFirst ' ' ("Basic " ++ value).data =
      some (['B', 'a', 's', 'i', 'c'], value.data) := by
    rw [hdata]; rfl
  have hmk : String.mk value.data = value := rfl
  have hmain : usernameFromRequest ("Basic " ++ value) = Except.ok s := by
    unfold usernameFromRequest
    rw [if_neg hne, hsp]
    simp only [hmk, hdec]
    rw [if_neg (by decide)]
    rw [beforeFirstColon, takeBeforeChar_of_not_mem ':' s.data hnc]
  refine ⟨hmain, fun st => ?_⟩
  simp [pickUpstreamFor, hmain]

/-- Witness for C10: `dXNlcg==` decodes to `user` (no colon), which
becomes the username whole; the empty value decodes to the empty
username. -/
theorem noColon_full_username_witness :
    usernameFromRequest ("Basic " ++ "dXNlcg==") = Except.ok "user" ∧
    usernameFromRequest ("Basic " ++ "") = Except.ok "" :=
  ⟨(noColon_full_username "dXNlcg==" "user" rfl (by decide)).1,
   (noColon_full_username "" "" rfl (by decide)).1⟩

end UpstreamGate
